import Mathlib

set_option maxRecDepth 100000

/-!
Verification development for the cgol Arduino sketch (src/cgol/cgol.ino).
The sketch simulates Conway's Game of Life on a 16x16 toroidal LED grid.
Rows are stored as two 8-bit halves (a[i][0] = columns 0-7 MSB-first,
a[i][1] = columns 8-15); the engine packs them into one 16-bit row value
before applying the rule.  This file embeds the generation engine, the
periodicity detector, the page state machine, the renderer write
generation and the analog-input handler as pure functions and proves
properties of them.
-/

namespace Cgol

/-- Grid height in cells: n = y * s = 2 * 8 (cgol.ino line 135). -/
def n : Nat := 16

/-- Grid width in cells: m = x * s = 2 * 8 (cgol.ino line 136). -/
def m : Nat := 16

/-- Arduino bitRead(value, k) = (value >> k) & 1. -/
def bitRead (v k : Nat) : Nat := (v >>> k) % 2

/-- Arduino bitWrite(value, k, b): sets bit k when b = 1, clears it when
b = 0; clearing a set bit is xor with (1 << k), clearing a clear bit is a
no-op. -/
def bitWrite (v k b : Nat) : Nat :=
  if b = 1 then v ||| (1 <<< k)
  else if bitRead v k = 1 then v ^^^ (1 <<< k) else v

/-- Neighbor count of cell (i, k) computed in rules() (cgol.ino lines
693-697): the eight reads of aTemp at row indices (i + (n-1)) % n, i,
(i+1) % n and bit indices (k + (m-1)) % m, k, (k+1) % m. -/
def total (aT : List Nat) (i k : Nat) : Nat :=
  bitRead (aT.getD ((i + (n - 1)) % n) 0) ((k + (m - 1)) % m) +
    bitRead (aT.getD i 0) ((k + (m - 1)) % m) +
    bitRead (aT.getD ((i + 1) % n) 0) ((k + (m - 1)) % m) +
    bitRead (aT.getD ((i + (n - 1)) % n) 0) k +
    bitRead (aT.getD ((i + 1) % n) 0) k +
    bitRead (aT.getD ((i + (n - 1)) % n) 0) ((k + 1) % m) +
    bitRead (aT.getD i 0) ((k + 1) % m) +
    bitRead (aT.getD ((i + 1) % n) 0) ((k + 1) % m)

/-- Body of the inner loop of rules() (cgol.ino lines 699-707): acc is
aTemp2[i]; the live-cell branch clears bit k when the neighbor total is
outside {2,3} and the dead-cell branch sets it when the total is exactly
3; in every other case aTemp2[i] keeps the copied snapshot bit. -/
def rulesBody (aT : List Nat) (i : Nat) (acc k : Nat) : Nat :=
  if bitRead (aT.getD i 0) k = 1 then
    if total aT i k < 2 ∨ total aT i k > 3 then bitWrite acc k 0 else acc
  else
    if total aT i k = 3 then bitWrite acc k 1 else acc

/-- Inner loop of rules() for one row (cgol.ino lines 690-709): aTemp2[i]
starts as a copy of aTemp[i], then every bit k in 0..m-1 is updated by
the rule. -/
def rulesRow (aT : List Nat) (i : Nat) : Nat :=
  (List.range m).foldl (rulesBody aT i) (aT.getD i 0)

/-- One generation step on the packed 16-bit row representation (the aTemp
array of rules()). -/
def rulesStep (aT : List Nat) : List Nat := (List.range n).map (rulesRow aT)

/-- Packing of the two 8-bit row halves into one 16-bit value:
aTemp[i] = (a[i][0] << 8) + a[i][1] (cgol.ino line 686). -/
def pack (u : List (Nat × Nat)) : List Nat := u.map (fun p => (p.1 <<< 8) + p.2)

/-- Unpacking of one 16-bit row back into halves: a[i][0] = aTemp2[i] >> 8
and a[i][1] = aTemp2[i] & 255 (cgol.ino lines 712-713). -/
def unpackRow (v : Nat) : Nat × Nat := (v >>> 8, v &&& 255)

/-- Full rules() body on the half-row grid representation: pack, apply the
rule to every cell from the read-only snapshot, unpack. -/
def rules (u : List (Nat × Nat)) : List (Nat × Nat) :=
  (rulesStep (pack u)).map unpackRow

/-- Relative offsets of the eight toroidal neighbors per spec section 3:
for cell (r, c) the neighbors are (r±1 mod L, c±1 mod L), (r±1 mod L, c)
and (r, c±1 mod L); subtracting 1 mod 16 is adding 15 mod 16. -/
def deltas : List (Nat × Nat) :=
  [(15, 15), (0, 15), (1, 15), (15, 0), (1, 0), (15, 1), (0, 1), (1, 1)]

/-- Spec-side live-neighbor count: the number of live cells among the
eight toroidal neighbors of (i, k). -/
def liveNbrs (aT : List Nat) (i k : Nat) : Nat :=
  (deltas.map (fun d => bitRead (aT.getD ((i + d.1) % 16) 0) ((k + d.2) % 16))).sum

/-- Pattern p1, the glider (cgol.ino lines 151-167), as (a[i][0], a[i][1])
half-row pairs. -/
def p1grid : List (Nat × Nat) :=
  [(0, 0), (0, 0), (0, 0), (56, 0), (8, 0), (16, 0), (0, 0), (0, 0),
   (0, 0), (0, 0), (0, 0), (0, 0), (0, 0), (0, 0), (0, 0), (0, 0)]

/-- Pattern p2 (cgol.ino lines 168-184). -/
def p2grid : List (Nat × Nat) :=
  [(0, 0), (0, 0), (0, 0), (0, 0), (5, 128), (8, 16), (24, 144), (208, 96),
   (208, 96), (24, 144), (8, 16), (5, 128), (0, 0), (0, 0), (0, 0), (0, 0)]

/-- Pattern p3 (cgol.ino lines 185-201). -/
def p3grid : List (Nat × Nat) :=
  [(0, 0), (0, 0), (0, 0), (0, 0), (28, 112), (34, 136), (34, 136), (94, 244),
   (96, 12), (0, 0), (0, 0), (6, 192), (10, 160), (4, 64), (0, 0), (0, 0)]

/-- All-zero grid: the boot contents of the global arrays mem, p4, p5, p6. -/
def zeroGrid : List (Nat × Nat) := List.replicate 16 (0, 0)

/-- All-zero packed grid: the boot contents of r1, r2, r3, r4, r64. -/
def zeroRow : List Nat := List.replicate 16 0

/-- Global mutable state of the sketch relevant to the modelled behavior:
the active grid a, the saved random seed mem, the writable slots p4-p6,
the periodicity history r1-r4 and checkpoint r64, the periodic flag, the
generation counter g, the page selector patternSel and the round-robin
save counter.  The stream rng with cursor rngPos models the values
returned by successive random(256) calls (each value is reduced mod 256,
the contract of random(256)). -/
structure SimState where
  a : List (Nat × Nat)
  mem : List (Nat × Nat)
  p4 : List (Nat × Nat)
  p5 : List (Nat × Nat)
  p6 : List (Nat × Nat)
  r1 : List Nat
  r2 : List Nat
  r3 : List Nat
  r4 : List Nat
  r64 : List Nat
  periodic : Bool
  g : Nat
  patternSel : Int
  counter : Nat
  rng : Nat → Nat
  rngPos : Nat

/-- generateData() (cgol.ino lines 611-621): fills a and mem with the same
fresh random bytes, row by row, two random(256) draws per row. -/
def generateData (st : SimState) : SimState :=
  { st with
    a := (List.range n).map
      (fun i => (st.rng (st.rngPos + 2 * i) % 256, st.rng (st.rngPos + 2 * i + 1) % 256)),
    mem := (List.range n).map
      (fun i => (st.rng (st.rngPos + 2 * i) % 256, st.rng (st.rngPos + 2 * i + 1) % 256)),
    rngPos := st.rngPos + 2 * n }

/-- patterns() (cgol.ino lines 767-814): resolves patternSel to a source
grid.  Page 0 clears periodic and generates fresh random data; pages 1-6
copy the catalog or writable slot into a; pages 3-6 clear periodic; pages
1 and 2 do not touch periodic; any other value changes nothing (the page
7-9 branches are commented out in the source).  Display writes and the
wall-clock bookkeeping (previous = current) are not modelled. -/
def patterns (st : SimState) : SimState :=
  if st.patternSel = 0 then generateData { st with periodic := false }
  else if st.patternSel = 1 then { st with a := p1grid }
  else if st.patternSel = 2 then { st with a := p2grid }
  else if st.patternSel = 3 then { st with a := p3grid, periodic := false }
  else if st.patternSel = 4 then { st with a := st.p4, periodic := false }
  else if st.patternSel = 5 then { st with a := st.p5, periodic := false }
  else if st.patternSel = 6 then { st with a := st.p6, periodic := false }
  else st

/-- Press branch of readButt() (cgol.ino lines 582-606): on page 0 the
slot selected by counter % 3 receives the seed grid mem, the counter
advances, the page becomes that slot's number and patterns() dispatches;
on any other page the page becomes 0 and patterns() dispatches. -/
def buttonPress (st : SimState) : SimState :=
  if st.patternSel = 0 then
    let c := st.counter % 3
    if c = 0 then patterns { st with p4 := st.mem, counter := st.counter + 1, patternSel := 4 }
    else if c = 1 then patterns { st with p5 := st.mem, counter := st.counter + 1, patternSel := 5 }
    else patterns { st with p6 := st.mem, counter := st.counter + 1, patternSel := 6 }
  else patterns { st with patternSel := 0 }

/-- Arduino constrain(v, lo, hi): lo when v < lo, hi when v > hi, else v. -/
def constrain (v lo hi : Int) : Int := if v < lo then lo else if v > hi then hi else v

/-- Decoded rotary encoder event (result of enc.process() in pattern()). -/
inductive EncDir where
  | none
  | cw
  | ccw
deriving DecidableEq

/-- pattern() (cgol.ino lines 750-765): a clockwise detent increments
patternSel, a counterclockwise one decrements it, the result is clamped
to [0, lim] with lim = 9, and patterns() dispatches; no event changes
nothing. -/
def encStep (d : EncDir) (st : SimState) : SimState :=
  match d with
  | EncDir.cw => patterns { st with patternSel := constrain (st.patternSel + 1) 0 9 }
  | EncDir.ccw => patterns { st with patternSel := constrain (st.patternSel - 1) 0 9 }
  | EncDir.none => st

/-- Folding a sequence of encoder events over the state. -/
def encSeq (ds : List EncDir) (st : SimState) : SimState :=
  ds.foldl (fun t d => encStep d t) st

/-- rules() as a state transformer: advances the active grid one
generation and increments g (cgol.ino lines 681-719). -/
def rulesCall (st : SimState) : SimState := { st with a := rules st.a, g := st.g + 1 }

/-- checkPeriodic() (cgol.ino lines 721-748): shift the history ring,
store the packed current grid in r1, compare it against the three older
entries (the pre-call r1, r2, r3, which the shift moves into r2, r3, r4),
and every 64th generation also compare it against the r64 checkpoint
before unconditionally overwriting the checkpoint; each match sets the
periodic flag.  Written field-wise: the ring comparison is applied after
the 64-generation branch, so its match wins the periodic value. -/
def checkPeriodic (st : SimState) : SimState :=
  { st with
    r1 := pack st.a, r2 := st.r1, r3 := st.r2, r4 := st.r3,
    r64 := (if st.g % 64 = 0 then pack st.a else st.r64),
    periodic :=
      (if pack st.a == st.r1 || pack st.a == st.r2 || pack st.a == st.r3 then true
       else if st.g % 64 = 0 then
         (if pack st.a == st.r64 then true else st.periodic)
       else st.periodic) }

/-- One refresh tick of loop() (cgol.ino lines 530-548): rules() runs,
then checkPeriodic() runs only while the periodic flag is clear.  The
branch that re-dispatches patterns() after the 5-second settled timeout
is not taken in any modelled scenario and is omitted. -/
def tick (st : SimState) : SimState :=
  let st1 := rulesCall st
  if st1.periodic then st1 else checkPeriodic st1

/-- State after setup() (cgol.ino lines 486-521): globals zero-initialized,
a seeded with the glider p1, patternSel 1, counter 0, g 0. -/
def bootState (rng : Nat → Nat) : SimState :=
  { a := p1grid, mem := zeroGrid, p4 := zeroGrid, p5 := zeroGrid, p6 := zeroGrid,
    r1 := zeroRow, r2 := zeroRow, r3 := zeroRow, r4 := zeroRow, r64 := zeroRow,
    periodic := false, g := 0, patternSel := 1, counter := 0,
    rng := rng, rngPos := 0 }

/-- Boot state with a horizontal blinker (three cells in a row) seeded in
the active grid at row 4, columns 2-4. -/
def blinkerState : SimState :=
  { bootState (fun _ => 0) with a :=
      [(0, 0), (0, 0), (0, 0), (0, 0), (56, 0), (0, 0), (0, 0), (0, 0),
       (0, 0), (0, 0), (0, 0), (0, 0), (0, 0), (0, 0), (0, 0), (0, 0)] }

/-- Boot state after the detector has settled while page 1 is active. -/
def settledOnPage1 : SimState :=
  { bootState (fun _ => 0) with patternSel := 1, periodic := true }

/-- Boot state switched to page 0 (random mode), with a random stream that
always yields 7. -/
def page0State : SimState := { bootState (fun _ => 7) with patternSel := 0 }

/-- Distinctive seed grid standing for the remembered random seed mem. -/
def seedGrid : List (Nat × Nat) :=
  [(1, 2), (3, 4), (5, 6), (7, 8), (9, 10), (11, 12), (13, 14), (15, 16),
   (17, 18), (19, 20), (21, 22), (23, 24), (25, 26), (27, 28), (29, 30), (31, 32)]

/-- Page-0 state whose remembered seed grid is seedGrid. -/
def pressState : SimState := { page0State with mem := seedGrid }

/-- updateDisplay() (cgol.ino lines 623-630), the instant rendering
strategy, as the ordered list of (tile, row, bitmap) writes it issues:
for each i in 0..7 it writes u[i+8][1] to tile 0, u[i+8][0] to tile 1,
u[i][1] to tile 2 and u[i][0] to tile 3, all at tile row i. -/
def updateDisplay (u : List (Nat × Nat)) : List (Nat × Nat × Nat) :=
  ((List.range 8).map
    (fun i =>
      [(0, i, (u.getD (i + 8) (0, 0)).2), (1, i, (u.getD (i + 8) (0, 0)).1),
       (2, i, (u.getD i (0, 0)).2), (3, i, (u.getD i (0, 0)).1)])).flatten

/-- Logical cell accessor for the half-row grid per spec section 3: the
most significant bit of a half is its leftmost column, so column c of row
r lives in bit 7 - c of a[r][0] when c < 8 and in bit 15 - c of a[r][1]
otherwise. -/
def cellAt (u : List (Nat × Nat)) (r c : Nat) : Nat :=
  if c < 8 then bitRead (u.getD r (0, 0)).1 (7 - c)
  else bitRead (u.getD r (0, 0)).2 (15 - c)

/-- Half of the row value of u in which cell (r, c) is stored. -/
def rowHalf (u : List (Nat × Nat)) (r c : Nat) : Nat :=
  if c < 8 then (u.getD r (0, 0)).1 else (u.getD r (0, 0)).2

/-- Grid with a single live cell at logical (0, 0): bit 7 of a[0][0]. -/
def g00 : List (Nat × Nat) :=
  [(128, 0), (0, 0), (0, 0), (0, 0), (0, 0), (0, 0), (0, 0), (0, 0),
   (0, 0), (0, 0), (0, 0), (0, 0), (0, 0), (0, 0), (0, 0), (0, 0)]

/-- Arduino map(x, in_min, in_max, out_min, out_max) with C integer
division (truncation toward zero, Int.tdiv). -/
def mapA (x inMin inMax outMin outMax : Int) : Int :=
  Int.tdiv ((x - inMin) * (outMax - outMin)) (inMax - inMin) + outMin

/-- State touched by readPot(): the simulation tick period and the display
brightness level. -/
structure PotState where
  refreshRate : Int
  brightness : Int
deriving DecidableEq

/-- readPot() (cgol.ino lines 555-571): the raw potentiometer value is
remapped to the refresh rate and constrained to [42, 2500]
unconditionally; when the button has been held for the long-press
duration the value is also remapped to a brightness level and written to
all four tiles with setIntensity.  Returns the new state and the list of
(tile, level) intensity writes issued. -/
def readPot (potVal : Int) (held : Bool) (st : PotState) : PotState × List (Nat × Int) :=
  let rr := constrain (mapA potVal 970 10 42 2500) 42 2500
  if held then
    let b := mapA potVal 0 970 0 15
    ({ refreshRate := rr, brightness := b }, (List.range 4).map (fun i => (i, b)))
  else
    ({ st with refreshRate := rr }, [])

/-- Value of the new bit computed by rulesBody for cell (i, k), read off
from the two branches of the loop body. -/
def newBit (aT : List Nat) (i k : Nat) : Nat :=
  if bitRead (aT.getD i 0) k = 1 then
    if total aT i k < 2 ∨ total aT i k > 3 then 0 else 1
  else
    if total aT i k = 3 then 1 else 0

/-! Helper lemmas. -/

theorem bitRead_eq_testBit (v t : Nat) : bitRead v t = if v.testBit t then 1 else 0 := by
  unfold bitRead
  rw [Nat.shiftRight_eq_div_pow, Nat.testBit_to_div_mod]
  rcases Nat.mod_two_eq_zero_or_one (v / 2 ^ t) with h | h <;> simp [h]

theorem bitRead_le_one (v t : Nat) : bitRead v t ≤ 1 := by
  unfold bitRead; omega

theorem one_shiftLeft_eq (k : Nat) : 1 <<< k = 2 ^ k := by
  rw [Nat.shiftLeft_eq, one_mul]

theorem bitRead_bitWrite (v k t b : Nat) (hb : b = 0 ∨ b = 1) :
    bitRead (bitWrite v k b) t = if t = k then b else bitRead v t := by
  rcases hb with hb | hb <;> subst hb
  · unfold bitWrite
    rw [if_neg (by omega)]
    by_cases hvk : bitRead v k = 1
    · have hvk' : v.testBit k = true := by
        rw [bitRead_eq_testBit] at hvk
        by_cases h : v.testBit k
        · exact h
        · simp [h] at hvk
      rw [if_pos hvk, bitRead_eq_testBit, bitRead_eq_testBit]
      by_cases ht : t = k
      · subst ht
        simp [Nat.testBit_xor, one_shiftLeft_eq, Nat.testBit_two_pow, hvk']
      · have hkt : k ≠ t := fun h => ht h.symm
        simp [Nat.testBit_xor, one_shiftLeft_eq, Nat.testBit_two_pow, hkt, ht]
    · have hvk0 : bitRead v k = 0 := by
        have := bitRead_le_one v k; omega
      rw [if_neg hvk]
      by_cases ht : t = k
      · subst ht; simp [hvk0]
      · simp [ht]
  · unfold bitWrite
    rw [if_pos rfl, bitRead_eq_testBit, bitRead_eq_testBit]
    by_cases ht : t = k
    · subst ht
      simp [Nat.testBit_or, one_shiftLeft_eq, Nat.testBit_two_pow]
    · have hkt : k ≠ t := fun h => ht h.symm
      simp [Nat.testBit_or, one_shiftLeft_eq, Nat.testBit_two_pow, hkt, ht]

theorem rulesRow_bits (aT : List Nat) (i : Nat) :
    ∀ j t, bitRead ((List.range j).foldl (rulesBody aT i) (aT.getD i 0)) t
      = if t < j then newBit aT i t else bitRead (aT.getD i 0) t := by
  intro j
  induction j with
  | zero => intro t; simp
  | succ j ih =>
    intro t
    rw [List.range_succ, List.foldl_append, List.foldl_cons, List.foldl_nil]
    simp only [rulesBody]
    by_cases halive : bitRead (aT.getD i 0) j = 1
    · by_cases htot : total aT i j < 2 ∨ total aT i j > 3
      · rw [if_pos halive, if_pos htot,
          bitRead_bitWrite _ j t 0 (Or.inl rfl), ih t]
        by_cases ht : t = j
        · subst ht
          rw [if_pos rfl, if_pos (Nat.lt_succ_self t)]
          simp only [newBit, if_pos halive, if_pos htot]
        · rw [if_neg ht]
          by_cases htj : t < j
          · rw [if_pos htj, if_pos (by omega)]
          · rw [if_neg htj, if_neg (by omega)]
      · rw [if_pos halive, if_neg htot, ih t]
        by_cases ht : t = j
        · subst ht
          rw [if_neg (Nat.lt_irrefl t), if_pos (Nat.lt_succ_self t)]
          simp only [newBit, if_pos halive, if_neg htot]
          exact halive
        · by_cases htj : t < j
          · rw [if_pos htj, if_pos (by omega)]
          · rw [if_neg htj, if_neg (by omega)]
    · by_cases htot : total aT i j = 3
      · rw [if_neg halive, if_pos htot,
          bitRead_bitWrite _ j t 1 (Or.inr rfl), ih t]
        by_cases ht : t = j
        · subst ht
          rw [if_pos rfl, if_pos (Nat.lt_succ_self t)]
          simp only [newBit, if_neg halive, if_pos htot]
        · rw [if_neg ht]
          by_cases htj : t < j
          · rw [if_pos htj, if_pos (by omega)]
          · rw [if_neg htj, if_neg (by omega)]
      · rw [if_neg halive, if_neg htot, ih t]
        by_cases ht : t = j
        · subst ht
          rw [if_neg (Nat.lt_irrefl t), if_pos (Nat.lt_succ_self t)]
          have h0 : bitRead (aT.getD i 0) t = 0 := by
            have := bitRead_le_one (aT.getD i 0) t; omega
          simp only [newBit, if_neg halive, if_neg htot]
          exact h0
        · by_cases htj : t < j
          · rw [if_pos htj, if_pos (by omega)]
          · rw [if_neg htj, if_neg (by omega)]

theorem rulesStep_getD (aT : List Nat) (i : Nat) (hi : i < 16) :
    (rulesStep aT).getD i 0 = rulesRow aT i := by
  unfold rulesStep
  rw [List.getD_eq_getElem?_getD, List.getElem?_map,
    show n = 16 from rfl, List.getElem?_range hi]
  rfl

theorem total_eq_liveNbrs (aT : List Nat) (i k : Nat) (hi : i < 16) (hk : k < 16) :
    total aT i k = liveNbrs aT i k := by
  simp [total, liveNbrs, deltas, n, m, Nat.mod_eq_of_lt hi, Nat.mod_eq_of_lt hk]
  omega

/-! Claim theorems. -/

/-- Claim C1: for every 16x16 grid, one generation step computes each new
cell from a read-only snapshot of the old generation using the 8-neighbor
toroidal neighborhood: a live cell remains live exactly when its
live-neighbor count is 2 or 3, a dead cell becomes live exactly when its
count is exactly 3, and every other cell is dead in the new generation.
The snapshot discipline is inherent in rulesStep reading only aT while
accumulating the new row value. -/
theorem claim1_step_life_rule (aT : List Nat) (i k : Nat) (hi : i < 16) (hk : k < 16) :
    bitRead ((rulesStep aT).getD i 0) k
      = (if bitRead (aT.getD i 0) k = 1 then
          (if liveNbrs aT i k = 2 ∨ liveNbrs aT i k = 3 then 1 else 0)
         else (if liveNbrs aT i k = 3 then 1 else 0)) := by
  rw [rulesStep_getD aT i hi]
  unfold rulesRow
  rw [show m = 16 from rfl, rulesRow_bits aT i 16 k, if_pos hk,
    newBit, total_eq_liveNbrs aT i k hi hk]
  by_cases halive : bitRead (aT.getD i 0) k = 1
  · rw [if_pos halive, if_pos halive]
    by_cases hc : liveNbrs aT i k = 2 ∨ liveNbrs aT i k = 3
    · rw [if_neg (by omega), if_pos hc]
    · rw [if_pos (by omega), if_neg hc]
  · rw [if_neg halive, if_neg halive]

/-- Witness for C1: the rule evaluated at the glider grid, cell (4, 11). -/
theorem claim1_step_life_rule_witness :
    bitRead ((rulesStep (pack p1grid)).getD 4 0) 11
      = (if bitRead ((pack p1grid).getD 4 0) 11 = 1 then
          (if liveNbrs (pack p1grid) 4 11 = 2 ∨ liveNbrs (pack p1grid) 4 11 = 3 then 1 else 0)
         else (if liveNbrs (pack p1grid) 4 11 = 3 then 1 else 0)) :=
  claim1_step_life_rule (pack p1grid) 4 11 (by decide) (by decide)

/-- Claim C9: the generation step applied to the all-dead grid returns the
all-dead grid; the empty grid is a fixed point of the step. -/
theorem claim9_empty_grid_fixed_point : rules zeroGrid = zeroGrid := by decide

theorem checkPeriodic_a (st : SimState) : (checkPeriodic st).a = st.a := rfl

theorem checkPeriodic_r1 (st : SimState) : (checkPeriodic st).r1 = pack st.a := rfl

theorem checkPeriodic_r2 (st : SimState) : (checkPeriodic st).r2 = st.r1 := rfl

theorem checkPeriodic_periodic_of_r2 (st : SimState) (h : pack st.a = st.r2) :
    (checkPeriodic st).periodic = true := by
  have hb : (pack st.a == st.r2) = true := by rw [h]; exact beq_self_eq_true _
  show (if pack st.a == st.r1 || pack st.a == st.r2 || pack st.a == st.r3 then true
        else if st.g % 64 = 0 then
          (if pack st.a == st.r64 then true else st.periodic)
        else st.periodic) = true
  simp [hb]

theorem tick_periodic_of (st : SimState) (h : st.periodic = true) :
    (tick st).periodic = true := by
  unfold tick rulesCall
  simp [h]

theorem tick_of_not_periodic (st : SimState) (h : st.periodic = false) :
    tick st = checkPeriodic (rulesCall st) := by
  unfold tick
  have hp : (rulesCall st).periodic = false := h
  simp [hp]

/-- Claim C6: for every grid whose orbit under the generation step has
period 2 (step applied twice returns the grid), such as the blinker, the
periodicity detector's settled flag becomes true within at most 4
consecutive observations, via comparison of the newest grid against the
older history-ring entries. -/
theorem claim6_period_two_settles (st : SimState) (h : rules (rules st.a) = st.a) :
    (tick (tick (tick (tick st)))).periodic = true := by
  by_cases h0 : st.periodic = true
  · exact tick_periodic_of _ (tick_periodic_of _ (tick_periodic_of _ (tick_periodic_of _ h0)))
  have h0' : st.periodic = false := by revert h0; cases st.periodic <;> simp
  rw [tick_of_not_periodic st h0']
  by_cases h1 : (checkPeriodic (rulesCall st)).periodic = true
  · exact tick_periodic_of _ (tick_periodic_of _ (tick_periodic_of _ h1))
  have h1' : (checkPeriodic (rulesCall st)).periodic = false := by
    revert h1; cases (checkPeriodic (rulesCall st)).periodic <;> simp
  rw [tick_of_not_periodic _ h1']
  by_cases h2 : (checkPeriodic (rulesCall (checkPeriodic (rulesCall st)))).periodic = true
  · exact tick_periodic_of _ (tick_periodic_of _ h2)
  have h2' : (checkPeriodic (rulesCall (checkPeriodic (rulesCall st)))).periodic = false := by
    revert h2; cases (checkPeriodic (rulesCall (checkPeriodic (rulesCall st)))).periodic <;> simp
  rw [tick_of_not_periodic _ h2']
  apply tick_periodic_of
  apply checkPeriodic_periodic_of_r2
  simp only [rulesCall, checkPeriodic_a, checkPeriodic_r2, checkPeriodic_r1]
  rw [h]

/-- Witness for C6: the blinker state settles within four ticks. -/
theorem claim6_period_two_settles_witness :
    (tick (tick (tick (tick blinkerState)))).periodic = true :=
  claim6_period_two_settles blinkerState (by decide)

set_option maxHeartbeats 1600000 in
/-- Counterexample to claim C2: with the glider seeded at boot and run for
exactly 64 steps, the detector is not settled at generation 64 even
though the grid's bit pattern at generation 64 exactly coincides with the
bit pattern at generation 0, refuting the claimed equivalence at this
concrete input. -/
theorem claim2_glider_cex :
    ¬ (((tick^[64]) (bootState fun _ => 0)).periodic = true ↔
        pack ((tick^[64]) (bootState fun _ => 0)).a = pack p1grid) := by
  decide

set_option maxHeartbeats 3200000 in
/-- Claim C2 as amended: at generation 64 the comparison is made against
the checkpoint grid, which still holds its boot-time all-zero contents
rather than the generation-0 pattern, so the glider run is not settled at
generation 64; the checkpoint is then overwritten with the generation-64
pattern and the detector first flags settled at generation 128. -/
theorem claim2_glider_settles_at_128 :
    ((tick^[64]) (bootState fun _ => 0)).periodic = false ∧
    ((tick^[64]) (bootState fun _ => 0)).r64 = pack p1grid ∧
    ((tick^[128]) (bootState fun _ => 0)).periodic = true := by
  refine ⟨by decide, by decide, by decide⟩

/-- Counterexample to claim C3: a dispatch that resolves page 1 leaves a
set settled flag set, so not every page-change dispatch resets the
periodicity detector. -/
theorem claim3_page1_cex : ¬ ((patterns settledOnPage1).periodic = false) := by decide

/-- Claim C3 as amended: a page-change dispatch clears the settled flag
for page 0 and pages 3-6, but leaves it unchanged for pages 1, 2 and the
inert pages 7-9. -/
theorem claim3_reset_only_some_pages (st : SimState)
    (h0 : 0 ≤ st.patternSel) (h9 : st.patternSel ≤ 9) :
    (patterns st).periodic
      = (if st.patternSel = 1 ∨ st.patternSel = 2 ∨ 7 ≤ st.patternSel
         then st.periodic else false) := by
  have hv : st.patternSel = 0 ∨ st.patternSel = 1 ∨ st.patternSel = 2 ∨
      st.patternSel = 3 ∨ st.patternSel = 4 ∨ st.patternSel = 5 ∨
      st.patternSel = 6 ∨ st.patternSel = 7 ∨ st.patternSel = 8 ∨
      st.patternSel = 9 := by omega
  rcases hv with h | h | h | h | h | h | h | h | h | h <;>
    simp [patterns, generateData, h]

/-- Witness for the amended C3: dispatching to page 4 with the flag set
clears it. -/
theorem claim3_reset_only_some_pages_witness :
    (patterns { settledOnPage1 with patternSel := 4 }).periodic
      = (if (4 : Int) = 1 ∨ (4 : Int) = 2 ∨ 7 ≤ (4 : Int)
         then { settledOnPage1 with patternSel := 4 }.periodic else false) :=
  claim3_reset_only_some_pages { settledOnPage1 with patternSel := 4 }
    (by decide) (by decide)

/-- Claim C10: every page-change dispatch, including regenerating a new
random grid on page 0, clears at most the settled flag and leaves the
four history-ring grids, the 64-generation checkpoint and the generation
counter unchanged, so later observations are compared against history
retained from the previous run. -/
theorem claim10_dispatch_preserves_history (st : SimState) :
    (patterns st).r1 = st.r1 ∧ (patterns st).r2 = st.r2 ∧
    (patterns st).r3 = st.r3 ∧ (patterns st).r4 = st.r4 ∧
    (patterns st).r64 = st.r64 ∧ (patterns st).g = st.g ∧
    ((patterns st).periodic = st.periodic ∨ (patterns st).periodic = false) := by
  unfold patterns generateData
  split_ifs <;> simp

/-- Counterexample to claim C5: starting on page 0, three successive
button presses do not populate slots 4, 5, 6; the second press leaves
page 0, the third writes slot 5, and slot 6 is never written, so the
third press does not leave the page at 6. -/
theorem claim5_three_presses_cex :
    (buttonPress (buttonPress (buttonPress pressState))).patternSel ≠ 6 ∧
    (buttonPress (buttonPress (buttonPress pressState))).p6 = zeroGrid := by
  refine ⟨by decide, by decide⟩

/-- Claim C5 as amended: a press on page 0 copies the stored seed grid
mem (not the evolved grid) into the writable slot selected by cursor mod
3, advances the cursor, and leaves the page equal to the slot just
written (4, 5 or 6); since the page is then nonzero, the following press
returns to page 0 instead of saving another slot, so three presses in
succession populate slot 4, regenerate on page 0, then populate slot 5. -/
theorem claim5_press_saves_seed (st : SimState) (h : st.patternSel = 0) :
    (st.counter % 3 = 0 →
      (buttonPress st).p4 = st.mem ∧ (buttonPress st).patternSel = 4) ∧
    (st.counter % 3 = 1 →
      (buttonPress st).p5 = st.mem ∧ (buttonPress st).patternSel = 5) ∧
    (st.counter % 3 = 2 →
      (buttonPress st).p6 = st.mem ∧ (buttonPress st).patternSel = 6) ∧
    (buttonPress st).a = st.mem ∧
    (buttonPress st).counter = st.counter + 1 ∧
    (buttonPress st).periodic = false ∧
    (buttonPress (buttonPress st)).patternSel = 0 := by
  have hc : st.counter % 3 = 0 ∨ st.counter % 3 = 1 ∨ st.counter % 3 = 2 := by omega
  rcases hc with hc | hc | hc <;>
    simp [buttonPress, patterns, generateData, h, hc]

/-- Witness for the amended C5: the first press from pressState saves the
seed into slot 4. -/
theorem claim5_press_saves_seed_witness :
    (pressState.counter % 3 = 0 →
      (buttonPress pressState).p4 = pressState.mem ∧
      (buttonPress pressState).patternSel = 4) ∧
    (pressState.counter % 3 = 1 →
      (buttonPress pressState).p5 = pressState.mem ∧
      (buttonPress pressState).patternSel = 5) ∧
    (pressState.counter % 3 = 2 →
      (buttonPress pressState).p6 = pressState.mem ∧
      (buttonPress pressState).patternSel = 6) ∧
    (buttonPress pressState).a = pressState.mem ∧
    (buttonPress pressState).counter = pressState.counter + 1 ∧
    (buttonPress pressState).periodic = false ∧
    (buttonPress (buttonPress pressState)).patternSel = 0 :=
  claim5_press_saves_seed pressState (by decide)

theorem patterns_patternSel (st : SimState) :
    (patterns st).patternSel = st.patternSel := by
  unfold patterns generateData
  split_ifs <;> rfl

theorem encStep_patternSel_cw (st : SimState) :
    (encStep EncDir.cw st).patternSel = constrain (st.patternSel + 1) 0 9 := by
  unfold encStep
  rw [patterns_patternSel]

theorem encStep_patternSel_ccw (st : SimState) :
    (encStep EncDir.ccw st).patternSel = constrain (st.patternSel - 1) 0 9 := by
  unfold encStep
  rw [patterns_patternSel]

theorem constrain_bounds (v lo hi : Int) (h : lo ≤ hi) :
    lo ≤ constrain v lo hi ∧ constrain v lo hi ≤ hi := by
  unfold constrain
  split_ifs <;> omega

theorem encSeq_bounds (ds : List EncDir) :
    ∀ st : SimState, 0 ≤ st.patternSel → st.patternSel ≤ 9 →
      0 ≤ (encSeq ds st).patternSel ∧ (encSeq ds st).patternSel ≤ 9 := by
  induction ds with
  | nil => intro st h0 h9; exact ⟨h0, h9⟩
  | cons d ds ih =>
    intro st h0 h9
    show 0 ≤ (encSeq ds (encStep d st)).patternSel ∧
      (encSeq ds (encStep d st)).patternSel ≤ 9
    cases d with
    | cw =>
      have hb := constrain_bounds (st.patternSel + 1) 0 9 (by omega)
      exact ih _ (by rw [encStep_patternSel_cw]; exact hb.1)
        (by rw [encStep_patternSel_cw]; exact hb.2)
    | ccw =>
      have hb := constrain_bounds (st.patternSel - 1) 0 9 (by omega)
      exact ih _ (by rw [encStep_patternSel_ccw]; exact hb.1)
        (by rw [encStep_patternSel_ccw]; exact hb.2)
    | none => exact ih _ h0 h9

/-- Claim C7: each encoder step event sets the page to
clamp(page + delta, 0, 9) with delta +1 for clockwise and -1 for
counterclockwise; for every sequence of events starting from a page in
[0, 9] the page never leaves [0, 9]; and ten consecutive clockwise steps
from page 0 end at exactly 9. -/
theorem claim7_encoder_clamp (st : SimState) (ds : List EncDir)
    (h0 : 0 ≤ st.patternSel) (h9 : st.patternSel ≤ 9) :
    ((encStep EncDir.cw st).patternSel = constrain (st.patternSel + 1) 0 9 ∧
     (encStep EncDir.ccw st).patternSel = constrain (st.patternSel - 1) 0 9) ∧
    (0 ≤ (encSeq ds st).patternSel ∧ (encSeq ds st).patternSel ≤ 9) ∧
    (st.patternSel = 0 →
      (encSeq (List.replicate 10 EncDir.cw) st).patternSel = 9) := by
  refine ⟨⟨encStep_patternSel_cw st, encStep_patternSel_ccw st⟩,
    encSeq_bounds ds st h0 h9, fun hz => ?_⟩
  show (encStep EncDir.cw (encStep EncDir.cw (encStep EncDir.cw (encStep EncDir.cw
    (encStep EncDir.cw (encStep EncDir.cw (encStep EncDir.cw (encStep EncDir.cw
    (encStep EncDir.cw (encStep EncDir.cw st)))))))))).patternSel = 9
  simp only [encStep_patternSel_cw, hz]
  decide

/-- Witness for C7: the encoder clamp behavior at the page-0 state and a
two-event sequence. -/
theorem claim7_encoder_clamp_witness :
    ((encStep EncDir.cw page0State).patternSel
        = constrain (page0State.patternSel + 1) 0 9 ∧
     (encStep EncDir.ccw page0State).patternSel
        = constrain (page0State.patternSel - 1) 0 9) ∧
    (0 ≤ (encSeq [EncDir.cw, EncDir.ccw] page0State).patternSel ∧
     (encSeq [EncDir.cw, EncDir.ccw] page0State).patternSel ≤ 9) ∧
    (page0State.patternSel = 0 →
      (encSeq (List.replicate 10 EncDir.cw) page0State).patternSel = 9) :=
  claim7_encoder_clamp page0State [EncDir.cw, EncDir.ccw] (by decide) (by decide)

/-- Counterexample to claim C4: for the grid with a single live cell at
logical (0, 0), the one write whose bitmap has a set bit goes to physical
tile 3, and every write to tile 0 carries an all-zero bitmap, refuting
the claimed placement in tile 0 given by 2 x (row-half) + (col-half). -/
theorem claim4_tile_cex :
    (3, 0, 128) ∈ updateDisplay g00 ∧
    (∀ w ∈ updateDisplay g00, w.1 = 0 → w.2.2 = 0) := by
  refine ⟨by decide, by decide⟩

/-- Claim C4 as amended: the instant strategy places logical cell (r, c)
in physical tile 2 x (1 - r / 8) + (1 - c / 8) (the complement of the
claimed index: row-half 0 and col-half 0 map to tile 3), at tile row
r mod 8 and bitmap bit 7 - (c mod 8); for the grid with a single live
cell at (0, 0) exactly one write carries a set bit, namely bitmap 128 to
tile 3 row 0, and no write to any other tile contains a set bit. -/
theorem claim4_tile_mapping (u : List (Nat × Nat)) (r c : Nat)
    (hr : r < 16) (hc : c < 16) :
    ((2 * (1 - r / 8) + (1 - c / 8), r % 8, rowHalf u r c) ∈ updateDisplay u ∧
     bitRead (rowHalf u r c) (7 - c % 8) = cellAt u r c) ∧
    (updateDisplay g00).filter (fun w => w.2.2 != 0) = [(3, 0, 128)] := by
  refine ⟨⟨?_, ?_⟩, by decide⟩
  · unfold updateDisplay
    rw [List.mem_flatten]
    by_cases hr8 : r < 8
    · have hrm : r % 8 = r := Nat.mod_eq_of_lt hr8
      refine ⟨_, List.mem_map_of_mem _ (List.mem_range.mpr hr8), ?_⟩
      by_cases hc8 : c < 8
      · simp [rowHalf, hc8, Nat.div_eq_of_lt hr8, Nat.div_eq_of_lt hc8, hrm]
      · have hcd : c / 8 = 1 := by omega
        simp [rowHalf, hc8, Nat.div_eq_of_lt hr8, hcd, hrm]
    · have hrd : r / 8 = 1 := by omega
      have hrm : r % 8 + 8 = r := by omega
      have hlt : r % 8 < 8 := Nat.mod_lt r (by omega)
      refine ⟨_, List.mem_map_of_mem _ (List.mem_range.mpr hlt), ?_⟩
      by_cases hc8 : c < 8
      · simp [rowHalf, hc8, hrd, Nat.div_eq_of_lt hc8, hrm]
      · have hcd : c / 8 = 1 := by omega
        simp [rowHalf, hc8, hrd, hcd, hrm]
  · by_cases hc8 : c < 8
    · have hcm : c % 8 = c := Nat.mod_eq_of_lt hc8
      simp [rowHalf, cellAt, hc8, hcm]
    · have hcm : 7 - c % 8 = 15 - c := by omega
      simp [rowHalf, cellAt, hc8, hcm]

/-- Witness for the amended C4: the mapping evaluated at the single-cell
grid and cell (0, 0). -/
theorem claim4_tile_mapping_witness :
    ((2 * (1 - 0 / 8) + (1 - 0 / 8), 0 % 8, rowHalf g00 0 0) ∈ updateDisplay g00 ∧
     bitRead (rowHalf g00 0 0) (7 - 0 % 8) = cellAt g00 0 0) ∧
    (updateDisplay g00).filter (fun w => w.2.2 != 0) = [(3, 0, 128)] :=
  claim4_tile_mapping g00 0 0 (by decide) (by decide)

/-- Counterexample to claim C8: a poll with the button held does not leave
the tick period unchanged; with a prior tick period of 100 ms and a raw
reading of 10 the poll sets it to 2500 ms even while the button is held. -/
theorem claim8_held_poll_cex :
    (readPot 10 true { refreshRate := 100, brightness := 0 }).1.refreshRate ≠ 100 := by
  decide

/-- Claim C8 as amended: every poll remaps the raw reading into the tick
period, bounded to [42, 2500] ms, regardless of the button state; while
the button is held the poll additionally remaps the reading into the
display brightness, bounded to 0-15, and writes it to all four tiles;
when the button is not held the brightness is untouched and no intensity
writes are issued. -/
theorem claim8_pot_mapping (st : PotState) (potVal : Int) (held : Bool)
    (hlo : 0 ≤ potVal) (hhi : potVal ≤ 1023) :
    (readPot potVal held st).1.refreshRate
        = constrain (mapA potVal 970 10 42 2500) 42 2500 ∧
    42 ≤ (readPot potVal held st).1.refreshRate ∧
    (readPot potVal held st).1.refreshRate ≤ 2500 ∧
    (held = true →
      (readPot potVal held st).1.brightness = mapA potVal 0 970 0 15 ∧
      0 ≤ (readPot potVal held st).1.brightness ∧
      (readPot potVal held st).1.brightness ≤ 15 ∧
      (readPot potVal held st).2
        = [(0, mapA potVal 0 970 0 15), (1, mapA potVal 0 970 0 15),
           (2, mapA potVal 0 970 0 15), (3, mapA potVal 0 970 0 15)]) ∧
    (held = false →
      (readPot potVal held st).1.brightness = st.brightness ∧
      (readPot potVal held st).2 = []) := by
  have hrr := constrain_bounds (mapA potVal 970 10 42 2500) 42 2500 (by omega)
  have hbval : mapA potVal 0 970 0 15 = Int.tdiv (potVal * 15) 970 := by
    unfold mapA
    norm_num
  have hb0 : 0 ≤ mapA potVal 0 970 0 15 := by
    rw [hbval]
    exact Int.tdiv_nonneg (by omega) (by omega)
  have hb15 : mapA potVal 0 970 0 15 ≤ 15 := by
    rw [hbval, Int.tdiv_eq_ediv (by omega) (by omega)]
    calc potVal * 15 / 970 ≤ 15345 / 970 :=
          Int.ediv_le_ediv (by omega) (by omega)
      _ = 15 := by decide
  cases held with
  | true =>
    exact ⟨rfl, hrr.1, hrr.2, fun _ => ⟨rfl, hb0, hb15, rfl⟩,
      fun hf => Bool.noConfusion hf⟩
  | false =>
    exact ⟨rfl, hrr.1, hrr.2, fun ht => Bool.noConfusion ht,
      fun _ => ⟨rfl, rfl⟩⟩

/-- Witness for the amended C8: a held poll at raw reading 500. -/
theorem claim8_pot_mapping_witness :
    (readPot 500 true { refreshRate := 100, brightness := 0 }).1.refreshRate
        = constrain (mapA 500 970 10 42 2500) 42 2500 ∧
    42 ≤ (readPot 500 true { refreshRate := 100, brightness := 0 }).1.refreshRate ∧
    (readPot 500 true { refreshRate := 100, brightness := 0 }).1.refreshRate ≤ 2500 ∧
    (true = true →
      (readPot 500 true { refreshRate := 100, brightness := 0 }).1.brightness
          = mapA 500 0 970 0 15 ∧
      0 ≤ (readPot 500 true { refreshRate := 100, brightness := 0 }).1.brightness ∧
      (readPot 500 true { refreshRate := 100, brightness := 0 }).1.brightness ≤ 15 ∧
      (readPot 500 true { refreshRate := 100, brightness := 0 }).2
        = [(0, mapA 500 0 970 0 15), (1, mapA 500 0 970 0 15),
           (2, mapA 500 0 970 0 15), (3, mapA 500 0 970 0 15)]) ∧
    (true = false →
      (readPot 500 true { refreshRate := 100, brightness := 0 }).1.brightness
          = (0 : Int) ∧
      (readPot 500 true { refreshRate := 100, brightness := 0 }).2 = []) :=
  claim8_pot_mapping { refreshRate := 100, brightness := 0 } 500 true
    (by decide) (by decide)

end Cgol

